import Mathlib

/-!
# Verification of the Web_Migration crawler (src/lib.rs, src/main.rs)

Shallow embedding of the Rust sources of the Web_Migration repository.

Conventions used throughout:
* Rust `String` / `&str` is modelled by Lean `String`; `+` on Rust strings is `++`.
* Rust `Bytes` / `Vec<u8>` is modelled by `List Nat` (each element one byte value).
* Rust slices `&data[a..b]` are modelled by `(data.drop a).take (b - a)`; where the
  Rust program would panic on an out-of-range slice the Lean model totalises by
  truncation, which only ever makes the model defined on more inputs.
* `usize` arithmetic is `Nat` arithmetic; the `j - 2` subtractions in the scanner
  are `Nat` truncated subtraction.
* All I/O (filesystem, HTTP, clock) is factored into an explicit oracle record
  `Env`; `Utc::now()` is modelled by passing the captured `Today` values as
  parameters (the program reads the clock twice in `pursue_targets`).
* `std::collections::HashSet<Vec<u8>>` is modelled by a duplicate-free list with
  membership-guarded insertion; iteration order of a hash set is unspecified in
  Rust, the model fixes one order.
-/

/-- Rust `enum Daily { Date(String), Time(i64) }`. -/
inductive Daily where
  | Date (s : String)
  | Time (t : Int)
deriving DecidableEq

/-- `Daily::get`: `Date(s) => s.to_string(), Time(t) => t.to_string()`. -/
def Daily.get : Daily → String
  | Daily.Date s => s
  | Daily.Time t => toString t

/-- Rust `struct Today { date: Daily, time: Daily }`. -/
structure Today where
  date : Daily
  time : Daily
deriving DecidableEq

/-- Rust `enum Paths` (config path roles). -/
inductive Paths where
  | Departments (p : String)
  | Targets (p : String)
  | BaseUrl (p : String)
  | Reports (p : String)
  | Bad
deriving DecidableEq

/-- Rust `fn join(s: &[String], acc: String) -> String` (lib.rs:604). -/
def join : List String → String → String
  | [], acc => acc
  | [a], acc => acc ++ a
  | a :: b, acc => join b (acc ++ a)

/-- Rust `fn join_by(s: &[String], acc: String, sep: &str) -> String` (lib.rs:612).
Note that the recursive arm appends `sep` after EVERY element, the last included. -/
def join_by : List String → String → String → String
  | a :: b, acc, sep => join_by b (acc ++ a ++ sep) sep
  | s, acc, _ => join s acc

/-- Rust `Paths::from` (lib.rs:59); `from` is a Lean keyword, hence the name. -/
def Paths.fromSegs (path : List String) (base_path : String) : Paths :=
  match path with
  | a :: b =>
    match a with
    | "Departments" => Paths.Departments (join b base_path)
    | "Targets" => Paths.Targets (join b base_path)
    | "BaseUrl" => Paths.BaseUrl (join b "")
    | "Reports" => Paths.Reports (join b base_path)
    | _ => Paths.Bad
  | [] => Paths.Bad

/-- Rust `Paths::get_path` (lib.rs:74). -/
def Paths.get_path : Paths → String
  | Paths.Departments p | Paths.Reports p | Paths.Targets p | Paths.BaseUrl p => "" ++ p
  | Paths.Bad => "bad path"

/-- Rust `Paths::make_path` (lib.rs:84). -/
def Paths.make_path (s : Paths) (path : String) : String :=
  s.get_path ++ path

/-- Rust `struct ConfigPath` (lib.rs:89). -/
structure ConfigPath where
  departments : Paths
  targets : Paths
  base_url : Paths
  reports : Paths

/-- One step of the `while let Some(path) = paths.pop()` loop of
`ConfigPath::build` (lib.rs:99): the popped element overwrites its role slot. -/
def ConfigPath.updateSlot (st : Paths × Paths × Paths × Paths) (path : Paths) :
    Paths × Paths × Paths × Paths :=
  match st, path with
  | (_, t, b, r), Paths.Departments p => (Paths.Departments p, t, b, r)
  | (d, _, b, r), Paths.Targets p => (d, Paths.Targets p, b, r)
  | (d, t, _, r), Paths.BaseUrl p => (d, t, Paths.BaseUrl p, r)
  | (d, t, b, _), Paths.Reports p => (d, t, b, Paths.Reports p)
  | (d, t, b, r), Paths.Bad => (d, t, b, r)

/-- Rust `ConfigPath::build` (lib.rs:97).  The Rust loop pops the vector from the
back, so it visits the list in reverse order; each visited element overwrites its
slot, hence the first list element of each role wins.  Modelled by folding over
the reversed list. -/
def ConfigPath.build (paths : List Paths) : ConfigPath :=
  let st := paths.reverse.foldl ConfigPath.updateSlot (Paths.Bad, Paths.Bad, Paths.Bad, Paths.Bad)
  { departments := st.1, targets := st.2.1, base_url := st.2.2.1, reports := st.2.2.2 }

/-- Rust `struct Target` (lib.rs:126). -/
structure Target where
  base : String
  extension : String
deriving DecidableEq

/-- Rust `Target::build` (lib.rs:132). -/
def Target.build (t : List String) : Target :=
  match t with
  | [] => { base := "", extension := "" }
  | [a] => { base := a, extension := "" }
  | a :: b => { base := a, extension := join_by b "" "/" }

/-- Rust `Target::to_path` (lib.rs:149). -/
def Target.to_path (t : Target) : String :=
  "" ++ t.base ++ "/"

/-- Rust `Target::to_url` (lib.rs:153). -/
def Target.to_url (t : Target) : String :=
  t.to_path ++ t.extension

/-- Rust `Target::to_store` (lib.rs:157): fold over the extension's chars
replacing `/` by `-`, then append ".txt". -/
def Target.to_store (t : Target) : String :=
  (t.extension.data.foldl
    (fun acc item => if item = '/' then acc.push '-' else acc.push item) "")
  ++ ".txt"

/-- Rust `struct Department` (lib.rs:199). -/
structure Department where
  base : Paths
  path : Target
  today : Today
deriving DecidableEq

/-- Rust `Department::build` (lib.rs:206). -/
def Department.build (path : Target) (today : Today) (base : Paths) : Department :=
  { base := base, path := path, today := today }

/-- Rust `Department::location` (lib.rs:214). -/
def Department.location (d : Department) : String :=
  d.base.make_path d.path.to_path

/-- Rust `Department::storage_location_today` (lib.rs:218). -/
def Department.storage_location_today (d : Department) : String :=
  d.location ++ d.today.date.get ++ "/"

/-- Rust `Department::storage_location_now` (lib.rs:222). -/
def Department.storage_location_now (d : Department) : String :=
  d.storage_location_today ++ d.today.time.get ++ "/"

/-- Rust `Department::file_location` (lib.rs:226). -/
def Department.file_location (d : Department) : String :=
  d.storage_location_now ++ d.path.to_store

/-- Rust `Department::destroy` (lib.rs:258). -/
def Department.destroy (d : Department) : Paths × Target × Today :=
  (d.base, d.path, d.today)

/-- Rust `fn bytes_match(a: &[u8], b: &[u8], count: usize) -> usize` (lib.rs:336):
length of the common prefix of `a` and `b`, added to `count`. -/
def bytes_match : List Nat → List Nat → Nat → Nat
  | c :: d, b :: bs, count => if b = c then bytes_match d bs (count + 1) else count
  | _, _, count => count

/-- `&data[a..b]` as a total operation (truncating where Rust would panic). -/
def rslice (data : List Nat) (a b : Nat) : List Nat :=
  (data.drop a).take (b - a)

/-- `HashSet::insert`: add the value if it is not already a member. -/
def hset_insert (v : List Nat) (s : List (List Nat)) : List (List Nat) :=
  if v ∈ s then s else v :: s

theorem bytes_match_le_right (a b : List Nat) (c : Nat) :
    bytes_match a b c ≤ c + b.length := by
  induction a generalizing b c with
  | nil => simp [bytes_match]
  | cons x xs ih =>
    cases b with
    | nil => simp [bytes_match]
    | cons y ys =>
      simp only [bytes_match]
      split
      · have := ih ys (c + 1)
        simpa [Nat.add_comm, Nat.add_left_comm] using this.trans (by omega)
      · omega

/-- First scanner loop (lib.rs:369): advance `i` looking for `content_marker`;
on a full match break with `i` just past the match.  The Rust code reuses the
variable `j` as the running count, but it is `0` at every call site of
`bytes_match` in this loop. -/
def scan_loop1 (data cm : List Nat) (i : Nat) : Nat :=
  if _h : i + cm.length < data.length then
    let j := bytes_match (rslice data i (i + cm.length)) cm 0
    if j = cm.length then i + j else scan_loop1 data cm (i + j + 1)
  else i
termination_by data.length - i
decreasing_by omega

/-- Inner attribute-search loop of the scanner (lib.rs:384):
`loop { j = bytes_match(&data[i..i+al], attr, 0); i += j + 1;
        if i + al >= l || j == al { break; } }`; returns the final `(i, j)`. -/
def scan_attr_loop (data am : List Nat) (i : Nat) : Nat × Nat :=
  let j := bytes_match (rslice data i (i + am.length)) am 0
  let i2 := i + j + 1
  if data.length ≤ i2 + am.length ∨ j = am.length then (i2, j)
  else scan_attr_loop data am i2
termination_by data.length - i
decreasing_by omega

theorem scan_attr_loop_gt (data am : List Nat) (i : Nat) :
    i < (scan_attr_loop data am i).1 := by
  induction i using scan_attr_loop.induct data am with
  | case1 i j i2 h => rw [scan_attr_loop]; simp only [h, if_pos]; omega
  | case2 i j i2 h ih =>
    rw [scan_attr_loop]
    simp only [h, if_neg, not_false_eq_true]
    have ih2 : i + bytes_match (rslice data i (i + am.length)) am 0 + 1 <
        (scan_attr_loop data am (i + bytes_match (rslice data i (i + am.length)) am 0 + 1)).1 := ih
    omega

/-- Inner delimiter-search loop of the scanner (lib.rs:398):
`loop { k = bytes_match(&data[j..j+dl], delim, 0); j += k + 1;
        if j + dl > l || k == dl { break; } }`; returns the final `(j, k)`. -/
def scan_delim_loop (data dm : List Nat) (j : Nat) : Nat × Nat :=
  let k := bytes_match (rslice data j (j + dm.length)) dm 0
  let j2 := j + k + 1
  if data.length < j2 + dm.length ∨ k = dm.length then (j2, k)
  else scan_delim_loop data dm j2
termination_by data.length + 1 - j
decreasing_by omega

theorem scan_delim_loop_gt (data dm : List Nat) (j : Nat) :
    j < (scan_delim_loop data dm j).1 := by
  induction j using scan_delim_loop.induct data dm with
  | case1 j k j2 h => rw [scan_delim_loop]; simp only [h, if_pos]; omega
  | case2 j k j2 h ih =>
    rw [scan_delim_loop]
    simp only [h, if_neg, not_false_eq_true]
    have ih2 : j + bytes_match (rslice data j (j + dm.length)) dm 0 + 1 <
        (scan_delim_loop data dm (j + bytes_match (rslice data j (j + dm.length)) dm 0 + 1)).1 := ih
    omega

/-- Pattern-check loop of the scanner (lib.rs:411):
`while temp < j - 2 - i && j - 2 - (i + temp) > pl
      && bytes_match(&data[i+temp..j-2], pattern, 0) != pl { temp += 1; }`. -/
def scan_temp_loop (data pm : List Nat) (i j temp : Nat) : Nat :=
  if _h : temp < j - 2 - i ∧ pm.length < j - 2 - (i + temp) ∧
      bytes_match (rslice data (i + temp) (j - 2)) pm 0 ≠ pm.length then
    scan_temp_loop data pm i j (temp + 1)
  else temp
termination_by j - 2 - i - temp
decreasing_by omega

/-- Second scanner loop (lib.rs:379-434): scan for `tag_marker`, then attribute,
then the delimited value, insert it if the pattern check passed, and continue at
the point reached; in the non-tag branch check for `end_content_marker` and
otherwise advance by `max j k + 1`. -/
def scan_loop2 (data em tm am pm dm : List Nat) (i : Nat) (scan : List (List Nat)) :
    List (List Nat) :=
  if _h : i + tm.length < data.length then
    let j := bytes_match (rslice data i (i + tm.length)) tm 0
    if j = tm.length ∧ i + j + am.length < data.length then
      let i1 := i + j
      let a := scan_attr_loop data am i1
      if a.2 = am.length ∧ a.1 + a.2 + 1 + pm.length < data.length then
        let i3 := a.1 + 1
        let dl := scan_delim_loop data dm i3
        let temp := scan_temp_loop data pm i3 dl.1 0
        let scan2 :=
          if dl.1 ≤ data.length ∧ pm.length < dl.1 - 2 - (i3 + temp) then
            hset_insert (rslice data i3 (dl.1 - 2)) scan
          else scan
        scan_loop2 data em tm am pm dm dl.1 scan2
      else
        scan_loop2 data em tm am pm dm a.1 scan
    else if i + em.length < data.length then
      let k := bytes_match (rslice data i (i + em.length)) em 0
      if k = em.length then scan
      else scan_loop2 data em tm am pm dm (i + max j k + 1) scan
    else scan
  else scan
termination_by data.length - i
decreasing_by
  · have h1 := scan_attr_loop_gt data am (i + bytes_match (rslice data i (i + tm.length)) tm 0)
    have h2 := scan_delim_loop_gt data dm
      ((scan_attr_loop data am (i + bytes_match (rslice data i (i + tm.length)) tm 0)).1 + 1)
    omega
  · have h1 := scan_attr_loop_gt data am (i + bytes_match (rslice data i (i + tm.length)) tm 0)
    omega
  · omega

/-- Rust `fn proper_scan_bytes` (lib.rs:343): run the first loop from offset 0,
then the second loop from the point reached, starting with an empty set. -/
def proper_scan_bytes (data cm em tm am pm dm : List Nat) : List (List Nat) :=
  scan_loop2 data em tm am pm dm (scan_loop1 data cm 0) []

/-- An HTTP response as `collect_content` observes it: the status class and the
outcome of materialising the body (`r.bytes()`). -/
structure Response where
  success : Bool
  body : Except String (List Nat)

/-- External-world oracle for one run.  Each field models one collaborator the
Rust code calls out to; the oracle is stateless (repeated identical calls agree).
`decode` models `String::from_utf8_lossy`, an external UTF-8 primitive. -/
structure Env where
  isDir : String → Bool
  mkdir : String → Except String Unit
  readFile : String → Except String (List String)
  clientBuild : Except String Unit
  fetchPage : String → Except String Response
  fetchAsset : String → Except String (String × List Nat)
  writeFile : String → List Nat → Except String Unit
  decode : List Nat → String

/-- Rust `async fn collect_content` (lib.rs:582): `Some` body bytes on a 2xx
response whose body materialises, `None` otherwise (non-2xx status, transport
error, or body error are all logged and yield `None`). -/
def collect_content (resp : Except String Response) : Option (List Nat) :=
  match resp with
  | Except.ok r =>
    if r.success then
      match r.body with
      | Except.ok b => some b
      | Except.error _ => none
    else none
  | Except.error _ => none

/-- Rust `Department::create_path` (lib.rs:230): create each of the three nested
directories, each only when `is_dir` says it is missing; the first failure aborts. -/
def Department.create_path (env : Env) (d : Department) : Except String Unit :=
  match (if env.isDir d.location then Except.ok () else env.mkdir d.location) with
  | Except.error e => Except.error e
  | Except.ok _ =>
    match (if env.isDir d.storage_location_today then Except.ok ()
           else env.mkdir d.storage_location_today) with
    | Except.error e => Except.error e
    | Except.ok _ =>
      match (if env.isDir d.storage_location_now then Except.ok ()
             else env.mkdir d.storage_location_now) with
      | Except.error e => Except.error e
      | Except.ok _ => Except.ok ()

/-- Rust `Department::store` (lib.rs:249).  Besides the returned report string the
model also returns the successful write, if any, so that theorems can speak about
what was written where. -/
def Department.store (env : Env) (d : Department) (content : List Nat) :
    String × Option (String × List Nat) :=
  match env.writeFile d.file_location content with
  | Except.error _ => ("No data for " ++ d.path.to_url, none)
  | Except.ok _ => (d.file_location, some (d.file_location, content))

/-- Rust `str::split("/")` for the single-character pattern used in
`download_files`: splits at every `/`, keeping empty pieces. -/
def split_on_char (c : Char) : List Char → List (List Char)
  | [] => [[]]
  | a :: rest =>
    let r := split_on_char c rest
    if a = c then [] :: r
    else
      match r with
      | h :: t => (a :: h) :: t
      | [] => [[a]]

/-- `path.split("/")` on a Lean `String`. -/
def splitSlash (s : String) : List String :=
  (split_on_char '/' s.data).map List.asString

/-- The directory-building prefix loop of `download_files` (lib.rs:440-448):
starting from the fixed literal `"T:/Web_Migration/files/"`, append each `/`-piece
of the target path, creating each directory that is missing; a creation failure
aborts the whole call via `?`. -/
def build_asset_path (env : Env) (acc : String) : List String → Except String String
  | [] => Except.ok acc
  | part :: rest =>
    let acc1 := acc ++ part
    match (if env.isDir acc1 then Except.ok () else env.mkdir acc1) with
    | Except.error e => Except.error e
    | Except.ok _ => build_asset_path env (acc1 ++ "/") rest

/-- The URL resolution at lib.rs:451-455: a match starting with `b'/'` (byte 47)
is prefixed with the origin, any other non-empty match is used as is, an empty
match is skipped (`continue`). -/
def resolveAsset (decode : List Nat → String) (t : List Nat) : Option String :=
  match t.head? with
  | some b => if b = 47 then some ("https://www.csun.edu" ++ decode t) else some (decode t)
  | none => none

/-- Result of one `download_files` call: the URLs for which a GET was issued, the
file writes performed, and the error that aborted the loop, if any (the `?`
operators at lib.rs:457 and lib.rs:469 return from `download_files` on the first
failing asset). -/
structure DlResult where
  attempts : List String
  writes : List (String × List Nat)
  err : Option String
deriving DecidableEq

/-- The per-asset loop of `download_files` (lib.rs:450-470). -/
def download_loop (env : Env) (path : String) : List (List Nat) → DlResult
  | [] => { attempts := [], writes := [], err := none }
  | t :: rest =>
    match resolveAsset env.decode t with
    | none => download_loop env path rest
    | some url =>
      match env.fetchAsset url with
      | Except.error e => { attempts := [url], writes := [], err := some e }
      | Except.ok (fname, content) =>
        let full := path ++ fname
        match env.writeFile full content with
        | Except.error e => { attempts := [url], writes := [], err := some e }
        | Except.ok _ =>
          let r := download_loop env path rest
          { attempts := url :: r.attempts, writes := (full, content) :: r.writes,
            err := r.err }

/-- Rust `async fn download_files(scan, path)` (lib.rs:439): build the directory
chain under the fixed root, then download each match.  The local file name is
derived from the final response URL by the `reqwest` URL type, which the model
folds into the `fetchAsset` oracle. -/
def download_files (env : Env) (scan : List (List Nat)) (path : String) : DlResult :=
  match build_asset_path env "T:/Web_Migration/files/" (splitSlash path) with
  | Except.error e => { attempts := [], writes := [], err := some e }
  | Except.ok bp => download_loop env bp scan

/-- Byte encoding of an ASCII string (models `str::as_bytes`, with which it
agrees on the ASCII range used by every literal in the program). -/
def strBytes (s : String) : List Nat :=
  s.data.map Char.toNat

/-- The scanner arguments fixed at the two call sites lib.rs:535-543 and
lib.rs:550-558. -/
def contentMarker : List Nat := strBytes "id=\"content\""

/-- End-of-region marker used at both scanner call sites. -/
def footerMarker : List Nat := strBytes "class=\"layout-csun--footer\""

/-- Hyperlink tag marker of the first scan. -/
def aTagMarker : List Nat := strBytes "<a "

/-- Hyperlink attribute of the first scan. -/
def hrefMarker : List Nat := strBytes "href"

/-- Image tag marker of the second scan. -/
def imgTagMarker : List Nat := strBytes "<img "

/-- Image attribute of the second scan. -/
def srcMarker : List Nat := strBytes "src"

/-- Substring filter used by both scans. -/
def filesPattern : List Nat := strBytes "/sites/default/files/"

/-- Attribute value delimiter used by both scans. -/
def quoteMarker : List Nat := strBytes "\""

/-- Observable outcome of a run: the report entries accumulated via
`report.add`, the page files written via `Department::store`, and the asset
files written via `download_files` (`println!` logging is I/O the model drops). -/
structure RunState where
  report : List String
  pageWrites : List (String × List Nat)
  assetWrites : List (String × List Nat)
deriving DecidableEq

/-- One iteration of the `while let Some(target) = targets.pop()` loop of
`pursue_targets` (lib.rs:509-575): build the `Department`, fetch the page,
create the storage directories, and on a successful fetch run both scans,
download their matches (download errors are logged and do not stop the target),
store the page and append the outcome to the report; finally `destroy` hands
`base` and `today` back for the next iteration.  The fixed-window throttle at
lib.rs:523-527 only suspends the thread and is dropped by the model. -/
def target_step (env : Env) (bu : Paths) (dept : Paths) (today : Today) (t : Target)
    (st : RunState) : Paths × Today × RunState :=
  let d := Department.build t today dept
  let content? := collect_content (env.fetchPage (bu.make_path d.path.to_url))
  let st1 :=
    match Department.create_path env d with
    | Except.ok _ =>
      match content? with
      | some content =>
        let scan1 := proper_scan_bytes content contentMarker footerMarker aTagMarker
          hrefMarker filesPattern quoteMarker
        let dl1 := download_files env scan1 d.path.to_url
        let scan2 := proper_scan_bytes content contentMarker footerMarker imgTagMarker
          srcMarker filesPattern quoteMarker
        let dl2 := download_files env scan2 d.path.to_url
        let s := Department.store env d content
        { report := st.report ++ [s.1],
          pageWrites := st.pageWrites ++ (match s.2 with | some w => [w] | none => []),
          assetWrites := st.assetWrites ++ dl1.writes ++ dl2.writes }
      | none => st
    | Except.error _ => st
  let dd := d.destroy
  (dd.1, dd.2.2, st1)

/-- The target loop of `pursue_targets`.  `Vec::pop` consumes the vector from the
back, so the loop visits the target list in reverse order; the model therefore
recurses head-first over the already-reversed list (`pursue_targets` below passes
`targets.reverse`). -/
def pursue_go (env : Env) (bu : Paths) : List Target → Paths → Today → RunState →
    Paths × Today × RunState
  | [], dept, today, st => (dept, today, st)
  | t :: rest, dept, today, st =>
    let r := target_step env bu dept today t st
    pursue_go env bu rest r.1 r.2.1 r.2.2

/-- Rust `struct Report` (lib.rs:263). -/
structure Report where
  info : Department
  data : List String
deriving DecidableEq

/-- Rust `Report::build`'s serialisation (lib.rs:285-291): entries joined with
a trailing `",\n"` each. -/
def reportSerialize (data : List String) : String :=
  data.foldl (fun acc item => acc ++ item ++ ",\n") ""

/-- Rust `Report::build` (lib.rs:280): ensure the report's directories exist and
store the serialised entries; the model also returns the write, if any. -/
def Report.build (env : Env) (r : Report) : Except String String × Option (String × List Nat) :=
  match Department.create_path env r.info with
  | Except.ok _ =>
    let s := Department.store env r.info (strBytes (reportSerialize r.data))
    (Except.ok s.1, s.2)
  | Except.error e => (Except.error e, none)

/-- Rust `fn pursue_targets` (lib.rs:493): build the HTTP client and runtime
(failure aborts the run), read the clock once for the targets (`ct`, lib.rs:496)
and once for the report (`cr`, lib.rs:503), then drain the target queue.  The
two `Today::build()` calls are modelled as the parameters `ct` and `cr`. -/
def pursue_targets (env : Env) (targets : List Target) (paths : ConfigPath)
    (ct cr : Today) : Except String (Report × RunState) :=
  match env.clientBuild with
  | Except.ok _ =>
    let report0 : Report :=
      { info := Department.build (Target.build ["reports"]) cr paths.reports, data := [] }
    let r := pursue_go env paths.base_url targets.reverse paths.departments ct
      { report := [], pageWrites := [], assetWrites := [] }
    Except.ok ({ report0 with data := r.2.2.report }, r.2.2)
  | Except.error e => Except.error e

/-- `pursue_targets` followed by `report.build()`, the tail of `Manager::run`
(lib.rs:315-317): the run's final result string, its observable `RunState`, and
the report file write, if any. -/
def full_run (env : Env) (targets : List Target) (paths : ConfigPath) (ct cr : Today) :
    Except String String × RunState × Option (String × List Nat) :=
  match pursue_targets env targets paths ct cr with
  | Except.ok (rep, st) =>
    let b := Report.build env rep
    (b.1, st, b.2)
  | Except.error e => (Except.error e, { report := [], pageWrites := [], assetWrites := [] }, none)

/-- Rust `fn prep_data` (lib.rs:620): the per-line tokenizer fold — split at
separator characters accepted by `f1`, dropping spaces, always pushing the
current (possibly empty) piece at a separator and once at end of line. -/
def tokenize (f1 : Char → Bool) (y : String) : List String :=
  let p := y.data.foldl
    (fun (acc : List String × String) item =>
      if f1 item then (acc.1 ++ [acc.2], "")
      else if item ≠ ' ' then (acc.1, acc.2.push item)
      else acc)
    ([], "")
  p.1 ++ [p.2]

/-- Rust `fn prep_data` (lib.rs:620): `None` when the file cannot be opened,
otherwise one `f2` result per line.  (Per-line read errors are logged and
skipped by the Rust code; the `readFile` oracle delivers whole lines.) -/
def prep_data {T : Type} (env : Env) (file_path : String) (f1 : Char → Bool)
    (f2 : List String → T) : Option (List T) :=
  match env.readFile file_path with
  | Except.ok lines => some (lines.map (fun y => f2 (tokenize f1 y)))
  | Except.error _ => none

/-- Rust `ConfigPath::prep_paths` (lib.rs:117). -/
def ConfigPath.prep_paths (env : Env) (base_path : String) : Option (List Paths) :=
  prep_data env "./config/config.txt" (fun v => v = ';' ∨ v = ',')
    (fun p => Paths.fromSegs p base_path)

/-- Rust `Targets::build` (lib.rs:177): an unreadable target file (`None`)
becomes an empty target list. -/
def Targets.build (prepped : Option (List Target)) : List Target :=
  match prepped with
  | some p => p
  | none => []

/-- Rust `Targets::prep_targets` (lib.rs:190). -/
def Targets.prep_targets (env : Env) (target_path : Paths) : Option (List Target) :=
  prep_data env target_path.get_path (fun v => v = '/') Target.build

/-- Rust `Manager::run` (lib.rs:303). -/
def Manager.run (env : Env) (ct cr : Today) (base_path : String) : Except String String :=
  if env.isDir base_path then
    match ConfigPath.prep_paths env base_path with
    | some c =>
      let paths := ConfigPath.build c
      let targets := Targets.build (Targets.prep_targets env paths.targets)
      (full_run env targets paths ct cr).1
    | none =>
      Except.error "Missing config file. Make sure config.txt exists in config/. Make sure it has appropriate content."
  else Except.error "Invalid base path"

/-! ## Helper lemmas -/

theorem join_by_data (l : List String) (acc sep : String) :
    (join_by l acc sep).data =
      acc.data ++ (l.map (fun s => s.data ++ sep.data)).flatten := by
  induction l generalizing acc with
  | nil => simp [join_by, join]
  | cons a t ih => simp [join_by, ih]

/-- The character fold of `Target::to_store` appends the `/`-to-`-` image of the
folded characters. -/
theorem store_fold_data (l : List Char) (s : String) :
    (l.foldl (fun acc item => if item = '/' then acc.push '-' else acc.push item) s).data =
      s.data ++ l.map (fun c => if c = '/' then '-' else c) := by
  induction l generalizing s with
  | nil => simp
  | cons c t ih =>
    simp only [List.foldl_cons, List.map_cons]
    rw [show (if c = '/' then s.push '-' else s.push c) = s.push (if c = '/' then '-' else c) by
      split <;> rfl]
    simp [ih]

theorem map_id_of_no_slash (l : List Char) (h : '/' ∉ l) :
    l.map (fun c => if c = '/' then '-' else c) = l := by
  induction l with
  | nil => rfl
  | cons c t ih =>
    simp only [List.mem_cons, not_or] at h
    have hc : c ≠ '/' := fun hcc => h.1 hcc.symm
    simp [List.map_cons, ih h.2, if_neg hc]

theorem flatten_slash_to_dash (ext : List String) (h : ∀ s ∈ ext, '/' ∉ s.data) :
    ((ext.map (fun s => s.data ++ ['/'])).flatten).map (fun c => if c = '/' then '-' else c)
      = (ext.map (fun s => s.data ++ ['-'])).flatten := by
  induction ext with
  | nil => rfl
  | cons e es ih =>
    simp only [List.map_cons, List.flatten_cons, List.map_append]
    rw [map_id_of_no_slash e.data (h e (by simp)), ih (fun s hs => h s (by simp [hs]))]
    simp

/-- Shape of every stored page path: department root, base segment, date,
timestamp, store name — the target's extension appears nowhere in it. -/
theorem file_location_shape (base : Paths) (t : Target) (today : Today) :
    (Department.build t today base).file_location =
      base.get_path ++ t.base ++ "/" ++ today.date.get ++ "/" ++ today.time.get ++ "/"
        ++ t.to_store := by
  apply String.ext
  simp [Department.build, Department.file_location, Department.storage_location_now,
    Department.storage_location_today, Department.location, Paths.make_path,
    Target.to_path]

/-! ## C1 -/

/-- Modelled from the spec (refinement side of C1): the claimed page layout
`<DepartmentsRoot>/<target.base>/<target.extension...>/<date>/<timestamp>/<storeName>`.
A `Target.extension` string already carries one `/` after every segment, so it is
inserted verbatim between the base segment and the date segment. -/
def spec_page_path (root : Paths) (t : Target) (today : Today) : String :=
  root.get_path ++ t.base ++ "/" ++ t.extension ++ today.date.get ++ "/"
    ++ today.time.get ++ "/" ++ t.to_store

/-- C1 counterexample: for the target built from `dept/page` (non-empty
extension) the page file location does NOT carry the extension segment between
the base segment and the date segment — the code's `Department::location` uses
`Target::to_path`, which keeps only the base. -/
theorem c1_counterexample :
    (Target.build ["dept", "page"]).extension ≠ "" ∧
    (Department.build (Target.build ["dept", "page"])
        { date := Daily.Date "2025-01-01", time := Daily.Time 5 }
        (Paths.Departments "archive/")).file_location ≠
      spec_page_path (Paths.Departments "archive/") (Target.build ["dept", "page"])
        { date := Daily.Date "2025-01-01", time := Daily.Time 5 } := by
  constructor
  · decide
  · decide

/-- C1 (amended): the archived page bytes for a target are written to
`<DepartmentsRoot>/<target.base>/<date>/<timestamp>/<storeName>`; the extension
segments do not appear in the directory path (they survive only inside the store
name). -/
theorem c1_page_path_no_extension (base : Paths) (t : Target) (today : Today) :
    (Department.build t today base).file_location =
      base.get_path ++ t.base ++ "/" ++ today.date.get ++ "/" ++ today.time.get ++ "/"
        ++ t.to_store :=
  file_location_shape base t today

/-! ## C2 -/

/-- C2 counterexample: for the target built from segments `dept / page`,
`to_url` carries a trailing separator and `to_store` carries a separator before
".txt", contradicting the claimed `base + "/" + join(extension, "/")` and
`join(extension, "-") + ".txt"`. -/
theorem c2_counterexample :
    (Target.build ["dept", "page"]).to_url = "dept/page/" ∧
    (Target.build ["dept", "page"]).to_store = "page-.txt" ∧
    ("dept/page/" : String) ≠ "dept/page" ∧
    ("page-.txt" : String) ≠ "page.txt" := by
  refine ⟨by decide, by decide, by decide, by decide⟩

/-- C2 (amended): for every target built from a base segment and extension
segments (none of which contains a `/`), `to_url` is the base plus `/` plus the
extension segments EACH followed by `/` (so a trailing separator is present
whenever the extension is non-empty), and `to_store` is the extension segments
each followed by `-`, then ".txt". -/
theorem c2_url_store (b : String) (ext : List String)
    (h : ∀ s ∈ ext, '/' ∉ s.data) :
    (Target.build (b :: ext)).to_url =
      b ++ "/" ++ String.join (ext.map (fun s => s ++ "/")) ∧
    (Target.build (b :: ext)).to_store =
      String.join (ext.map (fun s => s ++ "-")) ++ ".txt" := by
  have hext : (Target.build (b :: ext)).extension.data =
      (ext.map (fun s => s.data ++ ['/'])).flatten := by
    cases ext with
    | nil => simp [Target.build]
    | cons e es => simp [Target.build, join_by_data]
  have hbase : (Target.build (b :: ext)).base = b := by
    cases ext <;> simp [Target.build]
  constructor
  · apply String.ext
    simp [Target.to_url, Target.to_path, hext, hbase, String.join_eq,
      Function.comp_def]
  · apply String.ext
    simp only [Target.to_store, store_fold_data, String.data_append, hext,
      List.nil_append]
    rw [flatten_slash_to_dash ext h]
    simp only [String.join_eq, List.map_map]
    congr 2

/-- Witness for the amended C2 at the concrete target `dept/page`. -/
theorem c2_url_store_witness :
    (∀ s ∈ ["page"], '/' ∉ s.data) ∧
    ((Target.build ["dept", "page"]).to_url =
        "dept" ++ "/" ++ String.join (["page"].map (fun s => s ++ "/")) ∧
     (Target.build ["dept", "page"]).to_store =
        String.join (["page"].map (fun s => s ++ "-")) ++ ".txt") :=
  ⟨by decide, c2_url_store "dept" ["page"] (by decide)⟩

/-! ## C3 -/

/-- A fully co-operative oracle: every directory exists, every filesystem and
network call succeeds, the fetched asset is a fixed file, bytes decode as ASCII. -/
def envOk : Env :=
  { isDir := fun _ => true
    mkdir := fun _ => Except.ok ()
    readFile := fun _ => Except.ok []
    clientBuild := Except.ok ()
    fetchPage := fun _ => Except.ok { success := true, body := Except.ok [] }
    fetchAsset := fun _ => Except.ok ("file.bin", [7])
    writeFile := fun _ _ => Except.ok ()
    decode := fun b => List.asString (b.map Char.ofNat) }

theorem build_asset_path_extends (env : Env) (parts : List String) (acc bp : String)
    (h : build_asset_path env acc parts = Except.ok bp) : ∃ r, bp = acc ++ r := by
  induction parts generalizing acc with
  | nil =>
    simp only [build_asset_path, Except.ok.injEq] at h
    exact ⟨"", by simp [h]⟩
  | cons p rest ih =>
    simp only [build_asset_path] at h
    cases hc : (if env.isDir (acc ++ p) then Except.ok () else env.mkdir (acc ++ p)) with
    | error e => rw [hc] at h; cases h
    | ok _ =>
      rw [hc] at h
      obtain ⟨r, hr⟩ := ih (acc ++ p ++ "/") h
      exact ⟨p ++ "/" ++ r, by simp [hr, String.append_assoc]⟩

theorem download_loop_writes_prefixed (env : Env) (bp : String) (scan : List (List Nat)) :
    ∀ w ∈ (download_loop env bp scan).writes, ∃ r, w.1 = bp ++ r := by
  induction scan with
  | nil => simp [download_loop]
  | cons t rest ih =>
    intro w hw
    simp only [download_loop] at hw
    split at hw
    · exact ih w hw
    · split at hw
      · simp at hw
      · split at hw
        · simp at hw
        · simp only [List.mem_cons] at hw
          rcases hw with hw | hw
          · subst hw; exact ⟨_, rfl⟩
          · exact ih w hw

/-- C3 (amended): every asset write of a `download_files` call lands under the
fixed literal root `T:/Web_Migration/files/` (extended by the target's url
segments), not under the department storage location. -/
theorem c3_asset_writes_under_fixed_root (env : Env) (scan : List (List Nat))
    (path : String) (w : String × List Nat)
    (hw : w ∈ (download_files env scan path).writes) :
    ∃ r, w.1 = "T:/Web_Migration/files/" ++ r := by
  unfold download_files at hw
  cases hb : build_asset_path env "T:/Web_Migration/files/" (splitSlash path) with
  | error e => rw [hb] at hw; simp at hw
  | ok bp =>
    rw [hb] at hw
    obtain ⟨r1, h1⟩ := build_asset_path_extends env _ _ _ hb
    obtain ⟨r2, h2⟩ := download_loop_writes_prefixed env bp scan w hw
    exact ⟨r1 ++ r2, by rw [h2, h1, String.append_assoc]⟩

/-- Witness for the amended C3: a concrete successful download writes under the
fixed root. -/
theorem c3_asset_writes_witness :
    (("T:/Web_Migration/files/d/p//file.bin", [7]) ∈
        (download_files envOk [[47, 97]] "d/p/").writes) ∧
    ∃ r, ("T:/Web_Migration/files/d/p//file.bin" : String) =
        "T:/Web_Migration/files/" ++ r :=
  ⟨by decide, c3_asset_writes_under_fixed_root envOk [[47, 97]] "d/p/"
    ("T:/Web_Migration/files/d/p//file.bin", [7]) (by decide)⟩

/-- C3 counterexample: for the target built from `dept/page`, the asset
directory chain built by `download_files` is rooted at the hardcoded
`T:/Web_Migration/files/`, and it does not lie under the target's storage
location (the claim said it is derived from StorageLocation(target)). -/
theorem c3_counterexample :
    build_asset_path envOk "T:/Web_Migration/files/"
        (splitSlash (Target.build ["dept", "page"]).to_url)
      = Except.ok "T:/Web_Migration/files/dept/page//" ∧
    (Department.build (Target.build ["dept", "page"])
        { date := Daily.Date "2025-01-01", time := Daily.Time 5 }
        (Paths.Departments "archive/")).storage_location_now
      = "archive/dept/2025-01-01/5/" ∧
    ∀ r : String,
      ("archive/dept/2025-01-01/5/" : String) ++ r ≠ "T:/Web_Migration/files/dept/page//" := by
  refine ⟨by rfl, by decide, ?_⟩
  intro r h
  have h2 := congrArg (fun s : String => s.data.head?) h
  simp at h2

instance exceptDecEq {ε α : Type} [DecidableEq ε] [DecidableEq α] :
    DecidableEq (Except ε α) := fun x y =>
  match x, y with
  | Except.ok a, Except.ok b =>
    if h : a = b then isTrue (by rw [h]) else isFalse (fun hh => h (Except.ok.inj hh))
  | Except.error a, Except.error b =>
    if h : a = b then isTrue (by rw [h]) else isFalse (fun hh => h (Except.error.inj hh))
  | Except.ok _, Except.error _ => isFalse (fun hh => Except.noConfusion hh)
  | Except.error _, Except.ok _ => isFalse (fun hh => Except.noConfusion hh)

/-! ## C4 -/

/-- `Department::destroy` hands `base` and `today` back unchanged, so each loop
iteration leaves the department root and the run clock untouched. -/
theorem target_step_fst (env : Env) (bu dept : Paths) (today : Today) (t : Target)
    (st : RunState) :
    (target_step env bu dept today t st).1 = dept ∧
    (target_step env bu dept today t st).2.1 = today :=
  ⟨rfl, rfl⟩

/-- The report entries and page writes produced by one loop iteration do not
depend on the asset-fetch oracle (asset downloads only add to `assetWrites`). -/
theorem target_step_asset_rel (env : Env)
    (f : String → Except String (String × List Nat)) (bu dept : Paths) (today : Today)
    (t : Target) (st1 st2 : RunState)
    (hr : st1.report = st2.report) (hp : st1.pageWrites = st2.pageWrites) :
    ((target_step { env with fetchAsset := f } bu dept today t st1).2.2.report
       = (target_step env bu dept today t st2).2.2.report) ∧
    ((target_step { env with fetchAsset := f } bu dept today t st1).2.2.pageWrites
       = (target_step env bu dept today t st2).2.2.pageWrites) := by
  have e1 : Department.create_path { env with fetchAsset := f } = Department.create_path env :=
    rfl
  have e2 : ({ env with fetchAsset := f } : Env).fetchPage = env.fetchPage := rfl
  have e3 : Department.store { env with fetchAsset := f } = Department.store env := rfl
  simp only [target_step, e1, e2, e3]
  cases hcp : Department.create_path env (Department.build t today dept) with
  | error e => exact ⟨hr, hp⟩
  | ok u =>
    cases hcc : collect_content (env.fetchPage
        (bu.make_path (Department.build t today dept).path.to_url)) with
    | none => exact ⟨hr, hp⟩
    | some content => exact ⟨by simp [hr], by simp [hp]⟩

/-- Asset-oracle independence of the whole target loop. -/
theorem pursue_go_asset_indep (env : Env)
    (f : String → Except String (String × List Nat)) (bu : Paths) :
    ∀ (ts : List Target) (dept : Paths) (today : Today) (st1 st2 : RunState),
      st1.report = st2.report → st1.pageWrites = st2.pageWrites →
      ((pursue_go { env with fetchAsset := f } bu ts dept today st1).2.2.report
         = (pursue_go env bu ts dept today st2).2.2.report) ∧
      ((pursue_go { env with fetchAsset := f } bu ts dept today st1).2.2.pageWrites
         = (pursue_go env bu ts dept today st2).2.2.pageWrites) := by
  intro ts
  induction ts with
  | nil => exact fun dept today st1 st2 hr hp => ⟨hr, hp⟩
  | cons t rest ih =>
    intro dept today st1 st2 hr hp
    simp only [pursue_go]
    have hA := target_step_fst { env with fetchAsset := f } bu dept today t st1
    have hB := target_step_fst env bu dept today t st2
    obtain ⟨hrel1, hrel2⟩ := target_step_asset_rel env f bu dept today t st1 st2 hr hp
    rw [hA.1, hA.2, hB.1, hB.2]
    exact ih dept today _ _ hrel1 hrel2

/-- C4 (amended): the `?` operators in `download_files` make the FIRST failing
asset of a scan set abort the remaining downloads of that set — a fetch failure
(first conjunct) or a write failure (second conjunct) ends the loop with no
further asset attempted; but the failure never aborts the owning target or the
run: the run's report entries and page writes are independent of the
asset-fetch oracle (third conjunct). -/
theorem c4_asset_failure_behaviour :
    (∀ (env : Env) (bp : String) (a : List Nat) (rest : List (List Nat)) (url e : String),
      resolveAsset env.decode a = some url → env.fetchAsset url = Except.error e →
      download_loop env bp (a :: rest) = { attempts := [url], writes := [], err := some e }) ∧
    (∀ (env : Env) (bp : String) (a : List Nat) (rest : List (List Nat)) (url fname e : String)
        (content : List Nat),
      resolveAsset env.decode a = some url → env.fetchAsset url = Except.ok (fname, content) →
      env.writeFile (bp ++ fname) content = Except.error e →
      download_loop env bp (a :: rest) = { attempts := [url], writes := [], err := some e }) ∧
    (∀ (env : Env) (f : String → Except String (String × List Nat)) (bu : Paths)
        (ts : List Target) (dept : Paths) (today : Today) (st : RunState),
      ((pursue_go { env with fetchAsset := f } bu ts dept today st).2.2.report
         = (pursue_go env bu ts dept today st).2.2.report) ∧
      ((pursue_go { env with fetchAsset := f } bu ts dept today st).2.2.pageWrites
         = (pursue_go env bu ts dept today st).2.2.pageWrites)) := by
  refine ⟨?_, ?_, ?_⟩
  · intro env bp a rest url e h1 h2
    simp [download_loop, h1, h2]
  · intro env bp a rest url fname e content h1 h2 h3
    simp [download_loop, h1, h2, h3]
  · intro env f bu ts dept today st
    exact pursue_go_asset_indep env f bu ts dept today st st rfl rfl

/-- Oracle for the C4 scenario: asset `[1]` resolves to a URL whose GET fails,
asset `[2]` resolves to a URL whose GET and write succeed. -/
def envC4 : Env :=
  { envOk with
    decode := fun b => if b = [1] then "u1" else "u2"
    fetchAsset := fun u => if u = "u1" then Except.error "boom" else Except.ok ("f2", [9]) }

/-- C4 counterexample: with two assets in one scan set where the first fails to
fetch, the second — which succeeds when downloaded alone — is never attempted
and never written: "every other asset of the same scan set is still attempted"
is false. -/
theorem c4_counterexample :
    download_loop envC4 "B/" [[1], [2]]
        = { attempts := ["u1"], writes := [], err := some "boom" } ∧
    download_loop envC4 "B/" [[2]]
        = { attempts := ["u2"], writes := [("B/f2", [9])], err := none } ∧
    ("u2" ∉ (download_loop envC4 "B/" [[1], [2]]).attempts) ∧
    (download_loop envC4 "B/" [[1], [2]]).writes = [] := by
  refine ⟨by decide, by decide, by decide, by decide⟩

/-- Witness for the amended C4 at concrete inputs. -/
theorem c4_asset_failure_witness :
    (download_loop envC4 "B/" [[1], [3]]
        = { attempts := ["u1"], writes := [], err := some "boom" }) ∧
    ((pursue_go { envOk with fetchAsset := fun _ => Except.error "x" } (Paths.BaseUrl "b/")
        [] (Paths.Departments "d/") { date := Daily.Date "D", time := Daily.Time 1 }
        { report := [], pageWrites := [], assetWrites := [] }).2.2.report
      = (pursue_go envOk (Paths.BaseUrl "b/")
        [] (Paths.Departments "d/") { date := Daily.Date "D", time := Daily.Time 1 }
        { report := [], pageWrites := [], assetWrites := [] }).2.2.report) :=
  ⟨c4_asset_failure_behaviour.1 envC4 "B/" [1] [[3]] "u1" "boom" (by decide) (by decide),
   (c4_asset_failure_behaviour.2.2 envOk (fun _ => Except.error "x") (Paths.BaseUrl "b/")
      [] (Paths.Departments "d/") { date := Daily.Date "D", time := Daily.Time 1 }
      { report := [], pageWrites := [], assetWrites := [] }).1⟩

/-! ## C5 -/

/-- Config lines of the C5 scenario. -/
def cfgLines : List String :=
  ["Departments;d/", "Targets;t", "BaseUrl;http://x/", "Reports;r/"]

/-- The `ConfigPath` those lines produce for base path `/tmp/`. -/
def pathsC5 : ConfigPath :=
  ConfigPath.build
    (cfgLines.map (fun y => Paths.fromSegs (tokenize (fun v => v = ';' ∨ v = ',') y) "/tmp/"))

/-- Oracle for the C5 scenario: the config file reads fine, every other file —
including the target list at `/tmp/t` — is missing; no network is reachable. -/
def envC5 : Env :=
  { envOk with
    readFile := fun p =>
      if p = "./config/config.txt" then Except.ok cfgLines else Except.error "no such file"
    fetchPage := fun _ => Except.error "offline" }

/-- Oracle with no readable files at all (missing config). -/
def envC5a : Env := { envC5 with readFile := fun _ => Except.error "gone" }

/-- C5 counterexample: the target-list file is missing (its read errors), yet
`Manager::run` completes successfully with an empty target list and produces a
report — a missing target file is NOT fatal. -/
theorem c5_counterexample :
    envC5.readFile "/tmp/t" = Except.error "no such file" ∧
    Manager.run envC5 { date := Daily.Date "2025-01-01", time := Daily.Time 5 }
        { date := Daily.Date "2025-01-02", time := Daily.Time 7 } "/tmp/"
      = Except.ok "/tmp/r/reports/2025-01-02/7/.txt" := by
  refine ⟨by decide, by decide⟩

/-- C5 (amended): only an unreadable configuration file is fatal — `Manager::run`
then returns the fixed configuration error, whatever the rest of the world looks
like (first conjunct, so in particular no network activity can influence the
outcome).  An unreadable target-list file is NOT fatal: the run continues exactly
as a run over an empty target list, still producing the report (second
conjunct). -/
theorem c5_config_vs_target_file :
    (∀ (env : Env) (ct cr : Today) (bp e : String),
      env.isDir bp = true → env.readFile "./config/config.txt" = Except.error e →
      Manager.run env ct cr bp = Except.error
        "Missing config file. Make sure config.txt exists in config/. Make sure it has appropriate content.") ∧
    (∀ (env : Env) (ct cr : Today) (bp e : String) (cfg : List Paths),
      env.isDir bp = true →
      ConfigPath.prep_paths env bp = some cfg →
      env.readFile (ConfigPath.build cfg).targets.get_path = Except.error e →
      Manager.run env ct cr bp = (full_run env [] (ConfigPath.build cfg) ct cr).1) := by
  constructor
  · intro env ct cr bp e h1 h2
    simp [Manager.run, ConfigPath.prep_paths, prep_data, h1, h2]
  · intro env ct cr bp e cfg h1 h2 h3
    unfold Manager.run
    rw [h1, if_pos rfl, h2]
    simp only [Targets.prep_targets, prep_data, h3, Targets.build]

/-- Witness for the amended C5 at the concrete oracles. -/
theorem c5_config_vs_target_file_witness :
    (Manager.run envC5a { date := Daily.Date "d", time := Daily.Time 0 }
        { date := Daily.Date "d", time := Daily.Time 0 } "/tmp/"
      = Except.error
        "Missing config file. Make sure config.txt exists in config/. Make sure it has appropriate content.") ∧
    (Manager.run envC5 { date := Daily.Date "2025-01-01", time := Daily.Time 5 }
        { date := Daily.Date "2025-01-02", time := Daily.Time 7 } "/tmp/"
      = (full_run envC5 [] pathsC5 { date := Daily.Date "2025-01-01", time := Daily.Time 5 }
          { date := Daily.Date "2025-01-02", time := Daily.Time 7 }).1) :=
  ⟨c5_config_vs_target_file.1 envC5a _ _ "/tmp/" "gone" (by decide) (by decide),
   c5_config_vs_target_file.2 envC5 _ _ "/tmp/" "no such file"
     (cfgLines.map (fun y => Paths.fromSegs (tokenize (fun v => v = ';' ∨ v = ',') y) "/tmp/"))
     (by decide) (by decide) (by decide)⟩

/-! ## C6 -/

/-- A target whose fetch yields no content (transport error, non-2xx status, or
body error) leaves the loop state exactly as it was: no write, no report entry,
department root and run clock unchanged. -/
theorem target_step_skip (env : Env) (bu dept : Paths) (today : Today) (t : Target)
    (st : RunState)
    (h : collect_content (env.fetchPage (bu.make_path t.to_url)) = none) :
    target_step env bu dept today t st = (dept, today, st) := by
  simp only [target_step, Department.build, Department.destroy]
  rw [h]
  cases Department.create_path env { base := dept, path := t, today := today } <;> rfl

theorem pursue_go_append (env : Env) (bu : Paths) (a b : List Target) :
    ∀ (dept : Paths) (today : Today) (st : RunState),
      pursue_go env bu (a ++ b) dept today st =
        pursue_go env bu b (pursue_go env bu a dept today st).1
          (pursue_go env bu a dept today st).2.1
          (pursue_go env bu a dept today st).2.2 := by
  induction a with
  | nil => intro dept today st; rfl
  | cons t rest ih =>
    intro dept today st
    simp only [List.cons_append, pursue_go]
    exact ih _ _ _

/-- C6: a target whose fetch yields a non-2xx status or a transport error is
skipped — its loop iteration is the identity on the run state (no file written
for it, no report entry), and the whole run (report production included) is the
run over the remaining targets. -/
theorem c6_fetch_failure_skips :
    (∀ (env : Env) (bu dept : Paths) (today : Today) (t : Target) (st : RunState),
      collect_content (env.fetchPage (bu.make_path t.to_url)) = none →
      target_step env bu dept today t st = (dept, today, st)) ∧
    (∀ (env : Env) (paths : ConfigPath) (ct cr : Today) (l1 l2 : List Target) (t : Target),
      collect_content (env.fetchPage (paths.base_url.make_path t.to_url)) = none →
      full_run env (l1 ++ [t] ++ l2) paths ct cr = full_run env (l1 ++ l2) paths ct cr) := by
  constructor
  · exact fun env bu dept today t st h => target_step_skip env bu dept today t st h
  · intro env paths ct cr l1 l2 t h
    simp only [full_run, pursue_targets]
    cases env.clientBuild with
    | error e => rfl
    | ok u =>
      have hrev : (l1 ++ [t] ++ l2).reverse = l2.reverse ++ (t :: l1.reverse) := by simp
      have hrev2 : (l1 ++ l2).reverse = l2.reverse ++ l1.reverse := by simp
      rw [hrev, hrev2, pursue_go_append, pursue_go_append]
      simp only [pursue_go]
      rw [target_step_skip env paths.base_url _ _ t _ h]

/-- Oracle whose every page fetch fails at the transport level. -/
def envDown : Env := { envOk with fetchPage := fun _ => Except.error "down" }

/-- A concrete `ConfigPath` for run-level witnesses. -/
def pathsW : ConfigPath :=
  { departments := Paths.Departments "d/", targets := Paths.Targets "t",
    base_url := Paths.BaseUrl "b/", reports := Paths.Reports "r/" }

/-- Witness for C6: with a dead transport, the iteration for a concrete target
is the identity and the one-target run equals the zero-target run. -/
theorem c6_fetch_failure_witness :
    (target_step envDown (Paths.BaseUrl "b/") (Paths.Departments "d/")
        { date := Daily.Date "D", time := Daily.Time 1 } (Target.build ["p"])
        { report := [], pageWrites := [], assetWrites := [] }
      = ((Paths.Departments "d/"), { date := Daily.Date "D", time := Daily.Time 1 },
         { report := [], pageWrites := [], assetWrites := [] })) ∧
    (full_run envDown ([] ++ [Target.build ["p"]] ++ []) pathsW
        { date := Daily.Date "D", time := Daily.Time 1 }
        { date := Daily.Date "E", time := Daily.Time 2 }
      = full_run envDown ([] ++ []) pathsW
        { date := Daily.Date "D", time := Daily.Time 1 }
        { date := Daily.Date "E", time := Daily.Time 2 }) :=
  ⟨c6_fetch_failure_skips.1 envDown (Paths.BaseUrl "b/") (Paths.Departments "d/")
      { date := Daily.Date "D", time := Daily.Time 1 } (Target.build ["p"])
      { report := [], pageWrites := [], assetWrites := [] } (by decide),
   c6_fetch_failure_skips.2 envDown pathsW
      { date := Daily.Date "D", time := Daily.Time 1 }
      { date := Daily.Date "E", time := Daily.Time 2 } [] [] (Target.build ["p"]) (by decide)⟩

/-! ## C9 -/

/-- The scanner returns the empty set on an empty page. -/
theorem proper_scan_bytes_nil (cm em tm am pm dm : List Nat) :
    proper_scan_bytes [] cm em tm am pm dm = [] := by
  unfold proper_scan_bytes
  rw [scan_loop1, scan_loop2]
  simp

/-- Every page write added by one loop iteration is at the department file
location of that iteration's target, built from the threaded `today` clock. -/
theorem target_step_pageWrites_mem (env : Env) (bu dept : Paths) (today : Today)
    (t : Target) (st : RunState) (w : String × List Nat)
    (hw : w ∈ (target_step env bu dept today t st).2.2.pageWrites) :
    w ∈ st.pageWrites ∨ w.1 = (Department.build t today dept).file_location := by
  simp only [target_step] at hw
  split at hw
  · split at hw
    · rename_i content _hcc
      have hst : (Department.store env (Department.build t today dept) content).2 = none ∨
          (Department.store env (Department.build t today dept) content).2 =
            some ((Department.build t today dept).file_location, content) := by
        unfold Department.store
        cases env.writeFile (Department.build t today dept).file_location content <;> simp
      simp only [List.mem_append] at hw
      rcases hw with hw | hw
      · exact Or.inl hw
      · rcases hst with hst | hst <;> rw [hst] at hw <;> simp at hw
        exact Or.inr (by rw [hw])
    · exact Or.inl hw
  · exact Or.inl hw

/-- Every page write of a whole run is at a department file location built from
the single threaded run clock `today` and the single department root `dept`. -/
theorem pursue_go_pageWrites_mem (env : Env) (bu : Paths) :
    ∀ (ts : List Target) (dept : Paths) (today : Today) (st : RunState)
      (w : String × List Nat),
      w ∈ (pursue_go env bu ts dept today st).2.2.pageWrites →
      w ∈ st.pageWrites ∨
        ∃ t0 : Target, w.1 = (Department.build t0 today dept).file_location := by
  intro ts
  induction ts with
  | nil => exact fun dept today st w hw => Or.inl hw
  | cons t rest ih =>
    intro dept today st w hw
    simp only [pursue_go] at hw
    rw [(target_step_fst env bu dept today t st).1,
        (target_step_fst env bu dept today t st).2] at hw
    rcases ih dept today _ w hw with h1 | h1
    · rcases target_step_pageWrites_mem env bu dept today t st w h1 with h2 | h2
      · exact Or.inl h2
      · exact Or.inr ⟨t, h2⟩
    · exact Or.inr h1

/-- C9: all targets of one run share one `RunClock` — any two page files stored
by `pursue_targets` carry the identical date and timestamp directory segments,
namely those of the clock `ct` captured once before the loop. -/
theorem c9_one_clock_per_run (env : Env) (targets : List Target) (paths : ConfigPath)
    (ct cr : Today) (rep : Report) (st : RunState)
    (hrun : pursue_targets env targets paths ct cr = Except.ok (rep, st))
    (w1 w2 : String × List Nat) (h1 : w1 ∈ st.pageWrites) (h2 : w2 ∈ st.pageWrites) :
    ∃ b1 s1 b2 s2 : String,
      w1.1 = paths.departments.get_path ++ b1 ++ "/" ++ ct.date.get ++ "/"
          ++ ct.time.get ++ "/" ++ s1 ∧
      w2.1 = paths.departments.get_path ++ b2 ++ "/" ++ ct.date.get ++ "/"
          ++ ct.time.get ++ "/" ++ s2 := by
  unfold pursue_targets at hrun
  cases hcb : env.clientBuild with
  | error e => rw [hcb] at hrun; cases hrun
  | ok u =>
    rw [hcb] at hrun
    simp only [Except.ok.injEq, Prod.mk.injEq] at hrun
    have hst : st = (pursue_go env paths.base_url targets.reverse paths.departments ct
        { report := [], pageWrites := [], assetWrites := [] }).2.2 := hrun.2.symm
    rw [hst] at h1 h2
    rcases pursue_go_pageWrites_mem env paths.base_url targets.reverse paths.departments ct
        { report := [], pageWrites := [], assetWrites := [] } w1 h1 with hmem | ⟨t1, hw1⟩
    · simp at hmem
    rcases pursue_go_pageWrites_mem env paths.base_url targets.reverse paths.departments ct
        { report := [], pageWrites := [], assetWrites := [] } w2 h2 with hmem | ⟨t2, hw2⟩
    · simp at hmem
    exact ⟨t1.base, t1.to_store, t2.base, t2.to_store,
      by rw [hw1, file_location_shape], by rw [hw2, file_location_shape]⟩

/-- Targets' run clock of the witness runs. -/
def ctW : Today := { date := Daily.Date "D", time := Daily.Time 1 }

/-- Report clock of the witness runs (a distinct, later second reading). -/
def crW : Today := { date := Daily.Date "E", time := Daily.Time 2 }

/-- Observable state of the one-target witness run. -/
def stW9 : RunState :=
  { report := ["d/d/D/1/p-.txt"], pageWrites := [("d/d/D/1/p-.txt", [])], assetWrites := [] }

/-- Report of the one-target witness run. -/
def repW9 : Report :=
  { info := Department.build (Target.build ["reports"]) crW pathsW.reports,
    data := ["d/d/D/1/p-.txt"] }

/-- Witness for C9: a concrete successful run whose (single) page write carries
the date and timestamp segments of the targets' clock `ctW`. -/
theorem c9_one_clock_witness :
    (pursue_targets envOk [Target.build ["d", "p"]] pathsW ctW crW
      = Except.ok (repW9, stW9)) ∧
    (("d/d/D/1/p-.txt", ([] : List Nat)) ∈ stW9.pageWrites) ∧
    (∃ b1 s1 b2 s2 : String,
      ("d/d/D/1/p-.txt", ([] : List Nat)).1 =
        pathsW.departments.get_path ++ b1 ++ "/" ++ ctW.date.get ++ "/"
          ++ ctW.time.get ++ "/" ++ s1 ∧
      ("d/d/D/1/p-.txt", ([] : List Nat)).1 =
        pathsW.departments.get_path ++ b2 ++ "/" ++ ctW.date.get ++ "/"
          ++ ctW.time.get ++ "/" ++ s2) := by
  have hrun : pursue_targets envOk [Target.build ["d", "p"]] pathsW ctW crW
      = Except.ok (repW9, stW9) := by
    simp [pursue_targets, pursue_go, target_step, proper_scan_bytes_nil, download_files,
      build_asset_path, splitSlash, split_on_char, download_loop, Department.create_path,
      Department.store, collect_content, envOk, pathsW, Department.build, Paths.make_path,
      Target.to_url, Target.to_path, Target.build, Department.file_location,
      Department.storage_location_now, Department.storage_location_today, Department.location,
      Target.to_store, Daily.get, Paths.get_path, ctW, crW, stW9, repW9]
    decide
  refine ⟨hrun, by decide, ?_⟩
  exact c9_one_clock_per_run envOk [Target.build ["d", "p"]] pathsW ctW crW repW9 stW9 hrun
    ("d/d/D/1/p-.txt", []) ("d/d/D/1/p-.txt", []) (by decide) (by decide)

/-! ## C10 -/

/-- C10: the report's storage location is built from the SECOND clock reading
`cr` (lib.rs:503), not from the targets' clock `ct` — for every successful run
the report department carries `cr` and its file location is
`<ReportsRoot>/reports/<cr.date>/<cr.time>/.txt`; and the two readings are
independent, so the segments need not coincide (second conjunct exhibits two
clock values whose report locations differ). -/
theorem c10_report_uses_second_clock :
    (∀ (env : Env) (targets : List Target) (paths : ConfigPath) (ct cr : Today)
        (rep : Report) (st : RunState),
      pursue_targets env targets paths ct cr = Except.ok (rep, st) →
      rep.info.today = cr ∧
      rep.info.file_location =
        paths.reports.get_path ++ "reports" ++ "/" ++ cr.date.get ++ "/"
          ++ cr.time.get ++ "/" ++ ".txt") ∧
    (∃ ct cr : Today,
      (Department.build (Target.build ["reports"]) cr (Paths.Reports "r/")).file_location ≠
      (Department.build (Target.build ["reports"]) ct (Paths.Reports "r/")).file_location) := by
  constructor
  · intro env targets paths ct cr rep st hrun
    unfold pursue_targets at hrun
    cases hcb : env.clientBuild with
    | error e => rw [hcb] at hrun; cases hrun
    | ok u =>
      rw [hcb] at hrun
      simp only [Except.ok.injEq, Prod.mk.injEq] at hrun
      have hrep : rep =
          { info := Department.build (Target.build ["reports"]) cr paths.reports,
            data := (pursue_go env paths.base_url targets.reverse paths.departments ct
              { report := [], pageWrites := [], assetWrites := [] }).2.2.report } :=
        hrun.1.symm
      subst hrep
      refine ⟨rfl, ?_⟩
      rw [file_location_shape]
      rw [show (Target.build ["reports"]).base = "reports" from rfl,
          show (Target.build ["reports"]).to_store = ".txt" from by decide]
  · exact ⟨{ date := Daily.Date "A", time := Daily.Time 1 },
      { date := Daily.Date "B", time := Daily.Time 2 }, by decide⟩

/-- Witness for C10: the zero-target run with distinct clock readings. -/
theorem c10_report_clock_witness :
    pursue_targets envOk [] pathsW ctW crW
      = Except.ok
        ({ info := Department.build (Target.build ["reports"]) crW pathsW.reports,
           data := [] },
         { report := [], pageWrites := [], assetWrites := [] }) ∧
    ({ info := Department.build (Target.build ["reports"]) crW pathsW.reports,
       data := ([] : List String) } : Report).info.today = crW ∧
    ({ info := Department.build (Target.build ["reports"]) crW pathsW.reports,
       data := ([] : List String) } : Report).info.file_location =
      pathsW.reports.get_path ++ "reports" ++ "/" ++ crW.date.get ++ "/"
        ++ crW.time.get ++ "/" ++ ".txt" := by
  have hrun : pursue_targets envOk [] pathsW ctW crW
      = Except.ok
        ({ info := Department.build (Target.build ["reports"]) crW pathsW.reports,
           data := [] },
         { report := [], pageWrites := [], assetWrites := [] }) := by decide
  have happ := c10_report_uses_second_clock.1 envOk [] pathsW ctW crW _ _ hrun
  exact ⟨hrun, happ.1, happ.2⟩

/-! ## C7 and C8: scanner lemmas -/

theorem bytes_match_shift (a : List Nat) : ∀ (b : List Nat) (c : Nat),
    bytes_match a b c = c + bytes_match a b 0 := by
  induction a with
  | nil => intro b c; cases b <;> simp [bytes_match]
  | cons x xs ih =>
    intro b c
    cases b with
    | nil => simp [bytes_match]
    | cons y ys =>
      simp only [bytes_match]
      split
      · rw [ih ys (c + 1), ih ys 1]; omega
      · omega

/-- `bytes_match a b 0 = |b|` says exactly that `b` is a prefix of `a`. -/
theorem bytes_match_eq_iff (b : List Nat) : ∀ a : List Nat,
    bytes_match a b 0 = b.length ↔ b <+: a := by
  induction b with
  | nil => intro a; cases a <;> simp [bytes_match]
  | cons y ys ih =>
    intro a
    cases a with
    | nil => simp [bytes_match]
    | cons x xs =>
      simp only [bytes_match, List.cons_prefix_cons, List.length_cons]
      by_cases hxy : y = x
      · rw [if_pos hxy, bytes_match_shift xs ys 1]
        constructor
        · intro h; exact ⟨hxy, (ih xs).1 (by omega)⟩
        · intro h; rw [(ih xs).2 h.2]; omega
      · rw [if_neg hxy]
        constructor
        · intro h; omega
        · intro h; exact absurd h.1 hxy

/-- The pattern-check loop stops only when its `while` condition is false. -/
theorem scan_temp_loop_exit (data pm : List Nat) (i j : Nat) : ∀ temp0 : Nat,
    ¬ (scan_temp_loop data pm i j temp0 < j - 2 - i ∧
       pm.length < j - 2 - (i + scan_temp_loop data pm i j temp0) ∧
       bytes_match (rslice data (i + scan_temp_loop data pm i j temp0) (j - 2)) pm 0
         ≠ pm.length) := by
  intro temp0
  induction temp0 using scan_temp_loop.induct data pm i j with
  | case1 temp h ih => rw [scan_temp_loop, dif_pos h]; exact ih
  | case2 temp h => rw [scan_temp_loop, dif_neg h]; exact h

theorem hset_insert_mem (v x : List Nat) (s : List (List Nat))
    (h : x ∈ hset_insert v s) : x = v ∨ x ∈ s := by
  unfold hset_insert at h
  split at h
  · exact Or.inr h
  · rcases List.mem_cons.1 h with h | h
    · exact Or.inl h
    · exact Or.inr h

/-- Any value the scanner inserts contains the pattern marker: the insertion
guard re-checks the length bound, and the pattern loop stopped on a full
`bytes_match`, i.e. the pattern is a prefix of the value's tail at the offset
the loop reached. -/
theorem inserted_value_infix (data pm : List Nat) (i3 j3 : Nat)
    (hguard : pm.length < j3 - 2 - (i3 + scan_temp_loop data pm i3 j3 0)) :
    pm <:+: rslice data i3 (j3 - 2) := by
  have hexit := scan_temp_loop_exit data pm i3 j3 0
  have hT : scan_temp_loop data pm i3 j3 0 < j3 - 2 - i3 := by omega
  have hbm : bytes_match
      (rslice data (i3 + scan_temp_loop data pm i3 j3 0) (j3 - 2)) pm 0 = pm.length := by
    by_contra hne
    exact hexit ⟨hT, hguard, hne⟩
  have hpre := (bytes_match_eq_iff pm _).1 hbm
  have hdrop : (rslice data i3 (j3 - 2)).drop (scan_temp_loop data pm i3 j3 0) =
      rslice data (i3 + scan_temp_loop data pm i3 j3 0) (j3 - 2) := by
    unfold rslice
    rw [List.drop_take, List.drop_drop]
    congr 1
    omega
  have hsuf := List.drop_suffix (scan_temp_loop data pm i3 j3 0) (rslice data i3 (j3 - 2))
  rw [hdrop] at hsuf
  exact hpre.isInfix.trans hsuf.isInfix

/-- Invariant of the second scanner loop: every member of the result was already
in the accumulating set or contains the pattern marker as a contiguous
subsequence.  (Proved by strong induction on the distance to the end of the
page, which every recursive call of the loop strictly decreases.) -/
theorem scan_loop2_subset (data em tm am pm dm : List Nat) :
    ∀ (n i : Nat) (scan : List (List Nat)), data.length - i ≤ n →
      ∀ v ∈ scan_loop2 data em tm am pm dm i scan, v ∈ scan ∨ pm <:+: v := by
  intro n
  induction n with
  | zero =>
    intro i scan hn v hv
    rw [scan_loop2, dif_neg (by omega)] at hv
    exact Or.inl hv
  | succ n ihn =>
    intro i scan hn v hv
    rw [scan_loop2] at hv
    by_cases h1 : i + tm.length < data.length
    · rw [dif_pos h1] at hv
      dsimp only at hv
      split at hv
      · split at hv
        · have hgt1 := scan_attr_loop_gt data am
            (i + bytes_match (rslice data i (i + tm.length)) tm 0)
          have hgt2 := scan_delim_loop_gt data dm
            ((scan_attr_loop data am
              (i + bytes_match (rslice data i (i + tm.length)) tm 0)).1 + 1)
          have hrec := ihn _ _ (by omega) v hv
          rcases hrec with hrec | hrec
          · split at hrec
            · rename_i hg
              rcases hset_insert_mem _ _ _ hrec with hveq | hvm
              · right
                rw [hveq]
                exact inserted_value_infix data pm _ _ hg.2
              · exact Or.inl hvm
            · exact Or.inl hrec
          · exact Or.inr hrec
        · have hgt1 := scan_attr_loop_gt data am
            (i + bytes_match (rslice data i (i + tm.length)) tm 0)
          exact ihn _ _ (by omega) v hv
      · split at hv
        · split at hv
          · exact Or.inl hv
          · exact ihn _ _ (by omega) v hv
        · exact Or.inl hv
    · rw [dif_neg h1] at hv
      exact Or.inl hv

/-- When the content marker occurs nowhere in the page, the first loop never
breaks, so it ends within marker length of the end of the page. -/
theorem scan_loop1_no_match (data cm : List Nat)
    (h : ∀ k, ¬ cm <+: data.drop k) (i : Nat) :
    data.length ≤ scan_loop1 data cm i + cm.length := by
  induction i using scan_loop1.induct data cm with
  | case1 x h1 j h2 =>
    exfalso
    have h2' : bytes_match (rslice data x (x + cm.length)) cm 0 = cm.length := h2
    have hpre := (bytes_match_eq_iff cm _).1 h2'
    exact h x (hpre.trans (List.take_prefix _ _))
  | case2 x h1 j h2 ih =>
    have h2' : ¬ bytes_match (rslice data x (x + cm.length)) cm 0 = cm.length := h2
    have ih' : data.length ≤
        scan_loop1 data cm (x + bytes_match (rslice data x (x + cm.length)) cm 0 + 1)
          + cm.length := ih
    rw [scan_loop1, dif_pos h1]
    dsimp only
    rw [if_neg h2']
    exact ih'
  | case3 x h1 =>
    rw [scan_loop1, dif_neg h1]
    omega

/-! ## C7 -/

/-- C7 counterexample: a page in which the content marker (twenty `x` bytes)
never occurs, yet the scan is NOT empty — the first loop cannot even start
(the marker is longer than the page), scanning begins at offset 0 and extracts
the value `bbb` of the tag it finds there. -/
theorem c7_counterexample :
    proper_scan_bytes [60, 97, 61, 34, 98, 98, 98, 34, 113] (List.replicate 20 120)
        [69] [60] [97] [98] [34] = [[98, 98, 98]] ∧
    ¬ (List.replicate 20 120 : List Nat) <:+: [60, 97, 61, 34, 98, 98, 98, 34, 113] ∧
    ([[98, 98, 98]] : List (List Nat)) ≠ [] := by
  refine ⟨?_, by decide, by decide⟩
  simp [proper_scan_bytes, scan_loop1, scan_loop2, scan_attr_loop, scan_delim_loop,
    scan_temp_loop, bytes_match, rslice, hset_insert]

/-- C7 (amended): when the region-start marker has no occurrence in the page
AND the tag marker is at least as long as it, the scan returns the empty set
(without the length side condition the tail window of the page, shorter than
the region-start marker, is still scanned, as the counterexample shows). -/
theorem c7_scan_empty_when_marker_absent (data cm em tm am pm dm : List Nat)
    (habs : ¬ cm <:+: data) (hlen : cm.length ≤ tm.length) :
    proper_scan_bytes data cm em tm am pm dm = [] := by
  have hno : ∀ k, ¬ cm <+: data.drop k := by
    intro k hk
    exact habs (hk.isInfix.trans (List.drop_suffix k data).isInfix)
  have h1 := scan_loop1_no_match data cm hno 0
  unfold proper_scan_bytes
  rw [scan_loop2, dif_neg (by omega)]

/-- Witness for the amended C7. -/
theorem c7_scan_empty_witness :
    (¬ ([9, 9] : List Nat) <:+: [1, 2, 3]) ∧
    ([9, 9] : List Nat).length ≤ ([5, 5, 5] : List Nat).length ∧
    proper_scan_bytes [1, 2, 3] [9, 9] [3] [5, 5, 5] [1] [1] [1] = [] :=
  ⟨by decide, by decide,
   c7_scan_empty_when_marker_absent [1, 2, 3] [9, 9] [3] [5, 5, 5] [1] [1] [1]
     (by decide) (by decide)⟩

/-! ## C8 -/

/-- C8: every byte sequence in the set returned by the scanner contains the
value filter (pattern marker) as a contiguous substring. -/
theorem c8_scan_values_contain_filter (data cm em tm am pm dm : List Nat)
    (v : List Nat) (hv : v ∈ proper_scan_bytes data cm em tm am pm dm) :
    pm <:+: v := by
  rcases scan_loop2_subset data em tm am pm dm data.length (scan_loop1 data cm 0) []
      (by omega) v hv with h | h
  · simp at h
  · exact h

/-- Witness for C8 at a concrete page: the single extracted value `bcb`
contains the filter `c`. -/
theorem c8_scan_values_witness :
    ([98, 99, 98] ∈ proper_scan_bytes [81, 60, 97, 61, 34, 98, 99, 98, 34, 113]
        [81] [69] [60] [97] [99] [34]) ∧
    ([99] : List Nat) <:+: [98, 99, 98] := by
  have hmem : [98, 99, 98] ∈ proper_scan_bytes [81, 60, 97, 61, 34, 98, 99, 98, 34, 113]
      [81] [69] [60] [97] [99] [34] := by
    simp [proper_scan_bytes, scan_loop1, scan_loop2, scan_attr_loop, scan_delim_loop,
      scan_temp_loop, bytes_match, rslice, hset_insert]
  exact ⟨hmem, c8_scan_values_contain_filter _ _ _ _ _ _ _ _ hmem⟩
